import Mathlib

/-!
Verification development for the Email-archiver repository
(src/src/email_archiver.py).  The Python program is shallowly embedded:
pure computations become Lean functions, the SQLite store and the
filesystem become explicit state records, and the points where the
environment may raise an exception (database statements, payload writes,
fetch/parse failures) become explicit boolean / `Option Nat` oracles in
the input data, with the `try/except` structure of the source reproduced
as conditionals on those oracles.
-/

namespace EmailArchiver

/-! ### Python string primitives

Re-implemented on character lists with structural recursion (the model
is character-exact for ASCII, which is the granularity every claim
needs), so that every definition evaluates inside the kernel. -/

/-- Python str.lower(), per character (ASCII fold). -/
def py_lower (s : String) : String := String.mk (s.data.map Char.toLower)

/-- Python s[:n] (characters). -/
def py_take (s : String) (n : Nat) : String := String.mk (s.data.take n)

/-- Python str.strip(): drop leading and trailing whitespace. -/
def py_strip (s : String) : String :=
  String.mk (((s.data.dropWhile Char.isWhitespace).reverse.dropWhile
    Char.isWhitespace).reverse)

/-- Python s.split(sep)[0]: the characters before the first occurrence
of the separator character. -/
def before_first (sep : Char) (s : String) : String :=
  String.mk (s.data.takeWhile (fun c => c != sep))

/-- Python s.split(sep)[-1]: the characters after the last occurrence of
the separator character (the whole string when it does not occur). -/
def after_last (sep : Char) (s : String) : String :=
  String.mk ((s.data.reverse.takeWhile (fun c => c != sep)).reverse)

/-- Python sep.join(l). -/
def join_sep (sep : String) : List String → String
  | [] => ""
  | [a] => a
  | a :: rest => a ++ sep ++ join_sep sep rest

/-- Splitting a character list on whitespace runs (helper for
Python str.split() with no arguments). -/
def split_ws_aux : List Char → List Char → List String
  | acc, [] => if acc.isEmpty then [] else [String.mk acc.reverse]
  | acc, c :: rest =>
    if c.isWhitespace then
      if acc.isEmpty then split_ws_aux [] rest
      else String.mk acc.reverse :: split_ws_aux [] rest
    else split_ws_aux (c :: acc) rest

/-- self.max_emails_per_session = 100 (email_archiver.py line 15). -/
def max_emails_per_session : Nat := 100

/-- self.max_errors = 5 (email_archiver.py line 17). -/
def max_errors : Nat := 5

/-! ## Header decoding (safe_decode_header, lines 78-89)

`email.header.decode_header(raw)` is an external library call; it is
modelled by storing its result inside the `Header` value: the list of
decoded fragments (each a bytes fragment with its charset-decoded text,
or a plain str fragment) plus oracles for the places the library can
raise.  `decoded.decode(encoding or "utf-8", errors="replace")` never
raises a UnicodeDecodeError because of errors="replace"; the modelled
failure `decodeRaises` is a LookupError for an unknown charset name. -/

structure Fragment where
  isBytes : Bool
  text : String
  decodeRaises : Bool
deriving DecidableEq

structure Header where
  raw : String
  fragments : List Fragment
  decodeHeaderRaises : Bool
deriving DecidableEq

/-- decode_header on a plain unencoded string returns the single str
fragment [(s, None)]. -/
def plainHeader (s : String) : Header := ⟨s, [⟨false, s, false⟩], false⟩

/-- safe_decode_header (lines 78-89).  `decode_header(header)[0]` keeps
only the FIRST fragment; any exception inside the try block falls back
to `str(header)[:100]`; a missing header gives "(No Header)". -/
def safe_decode_header : Option Header → String
  | none => "(No Header)"
  | some h =>
    if h.decodeHeaderRaises then py_take h.raw 100
    else
      match h.fragments.head? with
      | none => py_take h.raw 100
      | some f =>
        if f.isBytes then
          if f.decodeRaises then py_take h.raw 100 else f.text
        else f.text

/-! ## Filename / path-segment sanitizer (lines 150-153 and 184-187) -/

/-- The common shape of the two inline sanitizations:
`"".join(c if c.isalnum() or c in allowed else "_" for c in text)[:maxLen]`. -/
def sanitize (text : String) (allowed : List Char) (maxLen : Nat) : String :=
  String.mk ((text.data.map
    (fun c => if c.isAlphanum || allowed.contains c then c else '_')).take maxLen)

/-- Allowed extra characters for the sender-derived path segment (line 151). -/
def senderAllowed : List Char := ['@', '.', '-', '_']

/-- Allowed extra characters for attachment filenames (line 185). -/
def filenameAllowed : List Char := ['.', '-', '_']

/-! ## Keyword extraction (store_email_metadata, lines 238-244) -/

/-- Python str.split() with no arguments: split on whitespace runs,
dropping empty pieces. -/
def py_split (t : String) : List String := split_ws_aux [] t.data

/-- `"".join(c for c in word if c.isalnum())` (line 242). -/
def clean_word (w : String) : String := String.mk (w.data.filter Char.isAlphanum)

/-- `3 <= len(clean_word) <= 30` (line 243). -/
def keyword_ok (w : String) : Bool := 3 ≤ w.length && w.length ≤ 30

/-- The cleaned words of `subject` and `sender` (both lowercased and
whitespace-split) before the length filter. -/
def raw_tokens (subject sender : String) : List String :=
  (py_split (py_lower subject) ++ py_split (py_lower sender)).map clean_word

/-- The keyword set of lines 239-244: qualifying cleaned words of subject
and sender, deduplicated (Python builds a `set`; the model keeps first
occurrences, only the underlying set is ever used by the claims). -/
def extract_keywords (subject sender : String) : List String :=
  ((raw_tokens subject sender).filter keyword_ok).dedup

/-! ## The metadata store (create_database lines 34-62,
store_email_metadata lines 227-255)

A `DB` is the observable content of email_archive.db: the
archived_emails rows, the search_index rows and the next AUTOINCREMENT
id.  `store_email_metadata` executes its statements in source order and
models the commit/rollback of the Python `try/except`: on any raising
statement the transaction is rolled back, so the observable database is
the original one.  `fail` is the environment oracle naming the statement
made to raise (0 = the archived_emails INSERT, i+1 = the i-th
search_index INSERT); independently, the UNIQUE constraint on email_id
makes statement 0 raise whenever a row with the same identifier already
exists. -/

structure ArchivedEmail where
  rowid : Nat
  email_id : String
  subject : String
  sender : String
  date_received : String
  attachments : String
  archive_path : String
deriving DecidableEq

structure KeywordEntry where
  email_id : Nat
  keyword : String
deriving DecidableEq

structure DB where
  emails : List ArchivedEmail
  index : List KeywordEntry
  nextId : Nat
deriving DecidableEq

def DB.empty : DB := ⟨[], [], 1⟩

/-- The keyword INSERT loop (lines 246-250), staged before commit.
Returns the staged rows and whether every statement succeeded; `i` is
the index of the first remaining statement in the transaction. -/
def insert_keywords (rowid : Nat) : List String → Nat → Option Nat →
    List KeywordEntry × Bool
  | [], _, _ => ([], true)
  | k :: rest, i, fail =>
    if fail == some i then ([], false)
    else
      let pr := insert_keywords rowid rest (i + 1) fail
      (⟨rowid, k⟩ :: pr.1, pr.2)

/-- store_email_metadata (lines 227-255). -/
def store_email_metadata (db : DB) (email_id subject sender date_received : String)
    (attachments : List String) (archive_path : String) (fail : Option Nat) : DB :=
  if db.emails.any (fun r => r.email_id == email_id) || fail == some 0 then
    db -- the archived_emails INSERT raised; except: rollback
  else
    let rec0 : ArchivedEmail :=
      ⟨db.nextId, email_id, subject, sender, date_received,
       join_sep ", " attachments, archive_path⟩
    let kws := extract_keywords subject sender
    let pr := insert_keywords db.nextId kws 1 fail
    if pr.2 then ⟨db.emails ++ [rec0], db.index ++ pr.1, db.nextId + 1⟩ -- commit
    else db -- a keyword INSERT raised; except: rollback

/-! ## Attachment extraction (process_single_email, lines 163-201)

A `Part` is one element of `email_message.walk()` in walk order (the
message object itself comes first; containers appear with
`is_multipart = true` and are skipped by the loop, so the tree shape
itself is irrelevant to the code).  `disposition` is
`str(part.get("Content-Disposition"))`, which is the string "None" when
the MIME header is absent.  `payload` is `part.get_payload(decode=True)`
with both `None` and `b""` (falsy in `if payload:`) modelled as `""`.
`write_raises` is the environment oracle for the inner try block raising
(payload decode failure or the open/write failing), which the source
logs and skips (fatal-to-part, not fatal-to-message). -/

structure Part where
  is_multipart : Bool
  content_type : String
  disposition : String
  filename : Option Header
  payload : String
  write_raises : Bool
deriving DecidableEq

/-- Python `needle in hay` on strings, as character lists: the needle
occurs contiguously somewhere in the haystack. -/
def has_substr (needle : List Char) : List Char → Bool
  | [] => needle.isEmpty
  | c :: rest => needle.isPrefixOf (c :: rest) || has_substr needle rest

/-- `f"attachment_{len(attachments)}.{ext}"` with
`ext = content_type.split("/")[-1]` (lines 180-181); `numSaved` is the
number of attachments saved so far. -/
def synth_name (content_type : String) (numSaved : Nat) : String :=
  "attachment_" ++ toString numSaved ++ "." ++ after_last '/' content_type

/-- Lines 178-183: the declared filename if present and non-empty
(`if not filename:` is true for both None and ""), else the synthesized
one; the chosen name then passes through safe_decode_header. -/
def chosen_filename (p : Part) (numSaved : Nat) : String :=
  match p.filename with
  | some h =>
    if h.raw == "" then
      safe_decode_header (some (plainHeader (synth_name p.content_type numSaved)))
    else safe_decode_header (some h)
  | none =>
    safe_decode_header (some (plainHeader (synth_name p.content_type numSaved)))

/-- The attachment loop (lines 164-201): walks the parts, writing each
qualifying non-empty payload to `<dir>/<safe_filename>` and collecting
the saved names.  Returns (attachments, files written so far). -/
def run_parts (dir : String) : List Part → List String → List String →
    List String × List String
  | [], atts, fs => (atts, fs)
  | p :: rest, atts, fs =>
    if p.is_multipart then run_parts dir rest atts fs
    else if !(has_substr "attachment".data (py_lower p.disposition).data) then
      run_parts dir rest atts fs
    else
      let safe_filename := sanitize (chosen_filename p atts.length) filenameAllowed 100
      if p.write_raises then run_parts dir rest atts fs
      else if p.payload == "" then run_parts dir rest atts fs
      else run_parts dir rest (atts ++ [safe_filename]) (fs ++ [dir ++ "/" ++ safe_filename])

/-! ## Per-message processing (process_single_email, lines 128-225) -/

structure Config where
  archive_root : String
  today : String
  delete_after_archive : Bool

/-- One fetched message together with the environment oracles of its
processing: `fetch_ok` is `status == "OK"` of `mail.fetch`; `raises`
models an exception before attachment processing (the fetch call itself,
`message_from_bytes`, or `os.makedirs` raising), caught at line 222;
`store_fail` is the statement-failure oracle passed to the insert
transaction. -/
structure EmailMsg where
  email_id : String
  raises : Bool
  fetch_ok : Bool
  subject : Option Header
  from_h : Option Header
  date_h : Option Header
  parts : List Part
  store_fail : Option Nat

/-- Mutable archiver + environment state: the store content, the files
written to disk (in write order), and self.error_count. -/
structure ArchSt where
  db : DB
  fs : List String
  error_count : Nat
deriving DecidableEq

/-- Lines 148-160: `os.path.join(archive_root, archive_date, safe_sender,
email_id.decode()[:10])` with
`safe_sender = sanitize(sender.split("@")[0], {@,.,-,_}, 50)`. -/
def archive_dir_of (cfg : Config) (sender : String) (email_id : String) : String :=
  cfg.archive_root ++ "/" ++ cfg.today ++ "/" ++
    sanitize (before_first '@' sender) senderAllowed 50 ++ "/" ++
    py_take email_id 10

/-- process_single_email (lines 128-225).  Returns the updated state and
the boolean return value of the Python method.  The `+FLAGS \\Deleted`
store on line 214 is mailbox-side and has no modelled effect. -/
def process_single_email (cfg : Config) (st : ArchSt) (m : EmailMsg) :
    ArchSt × Bool :=
  if m.raises then ({ st with error_count := st.error_count + 1 }, false)
  else if !m.fetch_ok then (st, false)
  else
    let subject := safe_decode_header m.subject
    let sender := safe_decode_header m.from_h
    let date_received := safe_decode_header m.date_h
    let dir := archive_dir_of cfg sender m.email_id
    let pr := run_parts dir m.parts [] st.fs
    if pr.1.isEmpty then ({ st with fs := pr.2 }, false)
    else
      let db' := store_email_metadata st.db m.email_id subject sender
        date_received pr.1 dir m.store_fail
      ({ st with db := db', fs := pr.2 }, true)

/-! ## The run loop (process_emails, lines 91-126) -/

/-- One mailbox session: `connected` is `connect_to_mailbox()` not
returning None; `search_ok` is the `status == "OK"` of the UNSEEN
search; `msgs` are the returned identifiers (with their fetch/parse
behavior) in server order; `close_raises` makes `mail.close()` /
`mail.logout()` in the finally block raise (swallowed by
`except: pass`). -/
structure Session where
  connected : Bool
  search_ok : Bool
  msgs : List EmailMsg
  close_raises : Bool

structure RunResult where
  st : ArchSt
  processed : Nat
  close_attempted : Bool
deriving DecidableEq

/-- The for loop of lines 109-115: the error-count check sits at the top
of each iteration and breaks the loop once `error_count >= max_errors`. -/
def run_batch (cfg : Config) : ArchSt → List EmailMsg → ArchSt × Nat
  | st, [] => (st, 0)
  | st, m :: rest =>
    if max_errors ≤ st.error_count then (st, 0)
    else
      let p := process_single_email cfg st m
      let q := run_batch cfg p.1 rest
      (q.1, (if p.2 then 1 else 0) + q.2)

/-- process_emails (lines 91-126).  A failed connect returns before the
try/finally, so no close is attempted; a failed search returns from
inside the try, so the finally block still attempts the close; the
result never depends on `close_raises` because of `except: pass`. -/
def process_emails (cfg : Config) (st : ArchSt) (sess : Session) : RunResult :=
  if !sess.connected then ⟨st, 0, false⟩
  else if !sess.search_ok then ⟨st, 0, true⟩
  else
    let p := run_batch cfg st (sess.msgs.take max_emails_per_session)
    ⟨p.1, p.2, true⟩

/-! ## Search (search_emails, lines 257-299)

The SQL of lines 272-284 is modelled relation-by-relation: the WHERE
clause keeps an archived_emails row when one of its four text fields, or
the keyword of one of its search_index rows, matches `LIKE "%q%"` with
`q = query.strip().lower()`; DISTINCT then collapses equal projected
5-tuples, ORDER BY sorts by the stored date text descending (SQLite
BINARY collation on TEXT is code-point order), and LIMIT keeps 100.
SQLite LIKE folds case for ASCII letters only and treats "%" and "_" in
the pattern as wildcards — also when they came from the query string. -/

/-- SQLite LIKE pattern matching on character lists, with ASCII case
folding.  Fuel-based so that the kernel can evaluate it; every call site
passes fuel larger than pattern length + string length, which the
recursion never exceeds. -/
def sqlite_like : Nat → List Char → List Char → Bool
  | 0, _, _ => false
  | _ + 1, [], s => s.isEmpty
  | fuel + 1, p :: ps, s =>
    if p == '%' then
      sqlite_like fuel ps s ||
        (match s with
         | [] => false
         | _ :: s' => sqlite_like fuel (p :: ps) s')
    else
      match s with
      | [] => false
      | c :: s' => (p == '_' || p.toLower == c.toLower) && sqlite_like fuel ps s'

/-- `field LIKE "%" || q || "%"`. -/
def like_contains (field q : String) : Bool :=
  let pat := "%" ++ q ++ "%"
  sqlite_like (pat.length + field.length + 1) pat.data field.data

/-- One row of the SELECT projection (subject, sender, date_received,
attachments, archive_path). -/
structure SearchRow where
  subject : String
  sender : String
  date : String
  attachments : String
  path : String
deriving DecidableEq

def to_row (e : ArchivedEmail) : SearchRow :=
  ⟨e.subject, e.sender, e.date_received, e.attachments, e.archive_path⟩

/-- The WHERE clause for one archived_emails row `e` (the LEFT JOIN
makes the keyword disjunct an existential over the search_index rows of
`e`; a NULL keyword compares to NULL, which is not true). -/
def email_matches (db : DB) (q : String) (e : ArchivedEmail) : Bool :=
  like_contains e.subject q || like_contains e.sender q ||
    like_contains e.attachments q || like_contains e.date_received q ||
    db.index.any (fun s => s.email_id == e.rowid && like_contains s.keyword q)

/-- ORDER BY e.date_received DESC: later rows have smaller-or-equal
date text. -/
def date_desc (a b : SearchRow) : Prop := b.date ≤ a.date

instance : DecidableRel date_desc := fun a b =>
  inferInstanceAs (Decidable (b.date ≤ a.date))

instance : IsTotal SearchRow date_desc := ⟨fun a b => le_total b.date a.date⟩

instance : IsTrans SearchRow date_desc := ⟨fun _ _ _ h1 h2 => le_trans h2 h1⟩

/-- The successful body of search_emails (lines 268-295), on an
established connection. -/
def search_emails (db : DB) (query : String) : List SearchRow :=
  let q := py_lower (py_strip query)
  ((((db.emails.filter (email_matches db q)).map to_row).dedup).insertionSort
    date_desc).take 100

def attribute_error_msg : String :=
  "AttributeError: EmailArchiver object has no attribute db_conn"

/-- search_emails as invoked on the archiver object (lines 257-299).
The debug statements of lines 260-262 dereference `self.db_conn` BEFORE
the try block and its `hasattr` guard, so when the connection attribute
is missing the method raises AttributeError to its caller instead of
reaching the guarded `return []`. -/
def search_emails_entry (conn : Option DB) (query : String) :
    Except String (List SearchRow) :=
  match conn with
  | none => Except.error attribute_error_msg
  | some db => Except.ok (search_emails db query)

/-! ## Spec-side comparison definitions (refinement claims only) -/

/-- Modelled from the spec: "multi-encoded-word decoding with charset
normalization to a single text encoding" — decoding a header decodes
EVERY encoded-word fragment and joins the results into one text. -/
def spec_decode_header (h : Header) : String :=
  String.join (h.fragments.map (fun f => f.text))

/-- Modelled from the spec: "case-insensitive substring matching" — the
query occurs verbatim (up to ASCII case) as a contiguous substring of
the field. -/
def ci_substr (q field : String) : Bool :=
  has_substr (py_lower q).data (py_lower field).data

/-! ## Concrete inputs for counterexamples and witnesses -/

def cfg0 : Config := ⟨"root", "2024-01-01", false⟩

def part0 : Part := ⟨false, "application/pdf", "attachment; filename=a.pdf",
  some (plainHeader "a.pdf"), "x", false⟩

def st0 : ArchSt := ⟨DB.empty, [], 0⟩

/-- A normal attachment-bearing message whose metadata INSERT is made to
raise by the environment (fail at statement 0, e.g. a locked or
unwritable database file). -/
def msg_dbfail : EmailMsg := ⟨"id1", false, true, some (plainHeader "Q3 Report"),
  some (plainHeader "alice@example.com"), some (plainHeader "2024"), [part0], some 0⟩

/-- The same message with a fully healthy environment. -/
def msg_ok : EmailMsg := ⟨"id1", false, true, some (plainHeader "Q3 Report"),
  some (plainHeader "alice@example.com"), some (plainHeader "2024"), [part0], none⟩

/-- A message whose processing raises (e.g. parse failure). -/
def msg_raise : EmailMsg := ⟨"id2", true, true, none, none, none, [], none⟩

/-- States with the error counter just below / at the threshold. -/
def st4 : ArchSt := ⟨DB.empty, [], 4⟩

def st5 : ArchSt := ⟨DB.empty, [], 5⟩

def sess0 : Session := ⟨true, true, [msg_raise], false⟩

def sess1 : Session := ⟨true, true, [msg_ok], false⟩

/-- A store that already holds a record with email identifier "id1". -/
def db_dup : DB :=
  ⟨[⟨1, "id1", "Old subject", "bob@example.com", "2023", "old.pdf", "p"⟩],
   [⟨1, "old"⟩, ⟨1, "subject"⟩], 2⟩

def st_dup : ArchSt := ⟨db_dup, [], 0⟩

/-- A header carrying two encoded-word fragments, as decode_header
returns for "=?utf-8?q?ab?= =?utf-8?q?cd?=". -/
def hdr_two : Header :=
  ⟨"=?utf-8?q?ab?= =?utf-8?q?cd?=", [⟨true, "ab", false⟩, ⟨true, "cd", false⟩], false⟩

/-- Same raw text and first fragment as hdr_two, different tail. -/
def hdr_two' : Header :=
  ⟨"=?utf-8?q?ab?= =?utf-8?q?cd?=", [⟨true, "ab", false⟩, ⟨true, "ZZ", false⟩], false⟩

/-- A header on which decode_header itself raises. -/
def hdr_raises : Header := ⟨"=?bogus raw header value?=", [], true⟩

def email_abc : ArchivedEmail := ⟨1, "e1", "abc", "", "", "", ""⟩

def db_abc : DB := ⟨[email_abc], [], 2⟩

/-! ## Helper lemmas -/

theorem insert_keywords_none (rowid : Nat) :
    ∀ (kws : List String) (i : Nat),
      insert_keywords rowid kws i none =
        (kws.map (fun k => (⟨rowid, k⟩ : KeywordEntry)), true)
  | [], _ => rfl
  | k :: rest, i => by
    simp only [insert_keywords, List.map_cons]
    rw [insert_keywords_none rowid rest (i + 1)]
    simp

theorem insert_keywords_ok (rowid : Nat) (kws : List String) :
    ∀ (i : Nat) (fail : Option Nat),
      (insert_keywords rowid kws i fail).2 = true →
      (insert_keywords rowid kws i fail).1 =
        kws.map (fun k => (⟨rowid, k⟩ : KeywordEntry)) := by
  induction kws with
  | nil => intro i fail _; rfl
  | cons k rest ih =>
    intro i fail h
    by_cases hf : (fail == some i) = true
    · simp [insert_keywords, hf] at h
    · simp only [insert_keywords, Bool.not_eq_true] at h ⊢
      rw [if_neg (by simp [hf])] at h ⊢
      simp only [List.map_cons]
      simp at h
      rw [ih (i + 1) fail h]

theorem store_dup_unchanged (db : DB)
    (email_id subject sender date_received : String) (attachments : List String)
    (archive_path : String) (fail : Option Nat)
    (h : db.emails.any (fun r => r.email_id == email_id) = true) :
    store_email_metadata db email_id subject sender date_received attachments
      archive_path fail = db := by
  simp [store_email_metadata, h]

/-- The committed database of a successful insert. -/
def committed_db (db : DB) (email_id subject sender date_received : String)
    (attachments : List String) (archive_path : String) : DB :=
  ⟨db.emails ++ [⟨db.nextId, email_id, subject, sender, date_received,
     join_sep ", " attachments, archive_path⟩],
   db.index ++ (extract_keywords subject sender).map
     (fun k => (⟨db.nextId, k⟩ : KeywordEntry)),
   db.nextId + 1⟩

theorem store_fresh_none (db : DB)
    (email_id subject sender date_received : String) (attachments : List String)
    (archive_path : String)
    (h : db.emails.any (fun r => r.email_id == email_id) = false) :
    store_email_metadata db email_id subject sender date_received attachments
      archive_path none =
      committed_db db email_id subject sender date_received attachments
        archive_path := by
  simp only [store_email_metadata, committed_db, h, Bool.false_or]
  rw [if_neg (by simp)]
  rw [insert_keywords_none]
  simp

theorem run_parts_shape (dir : String) (parts : List Part) :
    ∀ (atts fs : List String),
      ∃ newA newF, run_parts dir parts atts fs = (atts ++ newA, fs ++ newF) ∧
        newA.length = newF.length := by
  induction parts with
  | nil => intro atts fs; exact ⟨[], [], by simp [run_parts], rfl⟩
  | cons p rest ih =>
    intro atts fs
    cases h1 : p.is_multipart with
    | true => simpa only [run_parts, h1, if_true] using ih atts fs
    | false =>
    cases h2 : has_substr "attachment".data (py_lower p.disposition).data with
    | false =>
      obtain ⟨a, b, he, hl⟩ := ih atts fs
      exact ⟨a, b, by simp [run_parts, h1, h2, he], hl⟩
    | true =>
    cases h3 : p.write_raises with
    | true =>
      obtain ⟨a, b, he, hl⟩ := ih atts fs
      exact ⟨a, b, by simp [run_parts, h1, h2, h3, he], hl⟩
    | false =>
    cases h4 : p.payload == "" with
    | true =>
      obtain ⟨a, b, he, hl⟩ := ih atts fs
      exact ⟨a, b, by simp [run_parts, h1, h2, h3, h4, he], hl⟩
    | false =>
      obtain ⟨a, b, he, hl⟩ :=
        ih (atts ++ [sanitize (chosen_filename p atts.length) filenameAllowed 100])
          (fs ++ [dir ++ "/" ++
            sanitize (chosen_filename p atts.length) filenameAllowed 100])
      refine ⟨sanitize (chosen_filename p atts.length) filenameAllowed 100 :: a,
        (dir ++ "/" ++
          sanitize (chosen_filename p atts.length) filenameAllowed 100) :: b,
        ?_, by simp [hl]⟩
      simp only [run_parts, h1, h2, h3, h4]
      simp only [Bool.false_eq_true, if_false, Bool.not_true, Bool.not_false, if_true]
      rw [he]
      simp

theorem process_raises (cfg : Config) (st : ArchSt) (m : EmailMsg)
    (h : m.raises = true) :
    process_single_email cfg st m =
      ({ st with error_count := st.error_count + 1 }, false) := by
  simp [process_single_email, h]

theorem process_error_count (cfg : Config) (st : ArchSt) (m : EmailMsg)
    (h : m.raises = false) :
    (process_single_email cfg st m).1.error_count = st.error_count := by
  by_cases hf : m.fetch_ok = true
  · simp only [process_single_email, h, Bool.false_eq_true, if_false, hf,
      Bool.not_true, if_false]
    split <;> rfl
  · simp only [Bool.not_eq_true] at hf
    simp [process_single_email, h, hf]

theorem process_error_mono (cfg : Config) (st : ArchSt) (m : EmailMsg) :
    st.error_count ≤ (process_single_email cfg st m).1.error_count := by
  by_cases h : m.raises = true
  · rw [process_raises cfg st m h]
    exact Nat.le_succ _
  · simp only [Bool.not_eq_true] at h
    exact Nat.le_of_eq (process_error_count cfg st m h).symm

theorem run_batch_saturated (cfg : Config) (st : ArchSt) (msgs : List EmailMsg)
    (h : max_errors ≤ st.error_count) :
    run_batch cfg st msgs = (st, 0) := by
  cases msgs with
  | nil => rfl
  | cons m rest => simp [run_batch, h]

theorem run_batch_error_mono (cfg : Config) (msgs : List EmailMsg) :
    ∀ st : ArchSt, st.error_count ≤ (run_batch cfg st msgs).1.error_count := by
  induction msgs with
  | nil => intro st; exact Nat.le_refl _
  | cons m rest ih =>
    intro st
    by_cases h : max_errors ≤ st.error_count
    · rw [run_batch_saturated cfg st (m :: rest) h]
    · simp only [run_batch, if_neg h]
      exact Nat.le_trans (process_error_mono cfg st m)
        (ih (process_single_email cfg st m).1)

/-! ## Claim theorems -/

/-- Claim C6: for every input text, allowed set and cap, the sanitizer's
output has length at most the cap and every output character is
alphanumeric, in the allowed extra set, or the substitute character
underscore; the sanitizer is a total Lean function, so it never fails.
process_single_email instantiates it with (senderAllowed, 50) in
archive_dir_of and (filenameAllowed, 100) in run_parts, and the last two
conjuncts restate the bound at those parameters. -/
theorem C6_sanitizer_bounds :
    ∀ (text : String) (allowed : List Char) (maxLen : Nat),
      (sanitize text allowed maxLen).length ≤ maxLen ∧
      (sanitize text allowed maxLen).data.all
        (fun c => c.isAlphanum || allowed.contains c || c == '_') = true ∧
      (sanitize text senderAllowed 50).length ≤ 50 ∧
      (sanitize text filenameAllowed 100).length ≤ 100 := by
  have hlen : ∀ (t : String) (a : List Char) (n : Nat),
      (sanitize t a n).length ≤ n := by
    intro t a n
    show ((t.data.map _).take n).length ≤ n
    rw [List.length_take]
    exact min_le_left _ _
  have hall : ∀ (t : String) (a : List Char) (n : Nat),
      (sanitize t a n).data.all
        (fun c => c.isAlphanum || a.contains c || c == '_') = true := by
    intro t a n
    rw [List.all_eq_true]
    intro c hc
    have hc' := List.mem_of_mem_take hc
    rw [List.mem_map] at hc'
    obtain ⟨x, _, rfl⟩ := hc'
    by_cases h : (x.isAlphanum || a.contains x) = true
    · rw [if_pos h]
      simp only [Bool.or_eq_true] at h ⊢
      tauto
    · rw [if_neg h]
      simp
  exact fun t a n => ⟨hlen t a n, hall t a n, hlen t senderAllowed 50,
    hlen t filenameAllowed 100⟩

/-- Atomicity of the insert transaction: for every call and every
environment failure pattern, the resulting store is either exactly the
original store (full rollback) or exactly the original store extended by
the new record together with ALL of its keyword rows (full commit). -/
theorem store_atomic (db : DB)
    (email_id subject sender date_received : String) (attachments : List String)
    (archive_path : String) (fail : Option Nat) :
    store_email_metadata db email_id subject sender date_received attachments
        archive_path fail = db ∨
      store_email_metadata db email_id subject sender date_received attachments
        archive_path fail =
      committed_db db email_id subject sender date_received attachments
        archive_path := by
  by_cases h : (db.emails.any (fun r => r.email_id == email_id) ||
      (fail == some 0)) = true
  · left
    simp only [store_email_metadata, h, if_true]
  · cases hp : (insert_keywords db.nextId (extract_keywords subject sender) 1
        fail).2 with
    | false =>
      left
      simp only [store_email_metadata, h, if_false, hp, Bool.false_eq_true]
    | true =>
      right
      have hrows := insert_keywords_ok db.nextId (extract_keywords subject sender)
        1 fail hp
      simp only [store_email_metadata, committed_db]
      rw [if_neg (by simp [h]), if_pos hp, hrows]

/-- Claim C3 (counterexample): at a message whose metadata INSERT is
made to fail, the transaction does roll back (the store is unchanged and
holds no record, while the healthy run of the very same message stores
one), but the error is NOT reported to the caller: process_single_email
observes exactly what it observes on success — the same return value
True and the same untouched error counter — so ingestion of the message
is marked processed, not failed. -/
theorem C3_counterexample :
    (process_single_email cfg0 st0 msg_dbfail).1.db = st0.db ∧
    (process_single_email cfg0 st0 msg_dbfail).1.db.emails.any
      (fun r => r.email_id == "id1") = false ∧
    (process_single_email cfg0 st0 msg_ok).1.db.emails.any
      (fun r => r.email_id == "id1") = true ∧
    (process_single_email cfg0 st0 msg_dbfail).2 =
      (process_single_email cfg0 st0 msg_ok).2 ∧
    (process_single_email cfg0 st0 msg_dbfail).2 = true ∧
    (process_single_email cfg0 st0 msg_dbfail).1.error_count =
      (process_single_email cfg0 st0 msg_ok).1.error_count := by
  refine ⟨by decide, by decide, by decide, by decide, by decide, by decide⟩

/-- Claim C3 (amended): the metadata insert is atomic — for every call
and every failure pattern either the ArchivedEmail row and all of its
KeywordEntry rows are committed together, or the whole transaction rolls
back, so a record with no keywords, or keywords without a record, is
never observable — and the failure is non-fatal (the source catches
every statement failure, rolls back and logs it, and no exception
escapes), but it is NOT reported to the caller: store_email_metadata
returns None on both paths, so every caller-visible outcome of
process_single_email other than the store content — its boolean return
value, the error counter and the written files — is independent of
whether and where the insert transaction failed. -/
theorem C3_atomic_but_unreported :
    (∀ (db : DB) (email_id subject sender date_received : String)
        (attachments : List String) (archive_path : String) (fail : Option Nat),
      store_email_metadata db email_id subject sender date_received attachments
          archive_path fail = db ∨
        store_email_metadata db email_id subject sender date_received attachments
          archive_path fail =
        committed_db db email_id subject sender date_received attachments
          archive_path) ∧
    (∀ (cfg : Config) (st : ArchSt) (m : EmailMsg) (fail1 fail2 : Option Nat),
      (process_single_email cfg st { m with store_fail := fail1 }).2 =
        (process_single_email cfg st { m with store_fail := fail2 }).2 ∧
      (process_single_email cfg st { m with store_fail := fail1 }).1.error_count =
        (process_single_email cfg st { m with store_fail := fail2 }).1.error_count ∧
      (process_single_email cfg st { m with store_fail := fail1 }).1.fs =
        (process_single_email cfg st { m with store_fail := fail2 }).1.fs) := by
  refine ⟨store_atomic, ?_⟩
  intro cfg st m fail1 fail2
  obtain ⟨eid, mr, mf, msub, mfrom, mdate, mparts, msf⟩ := m
  cases mr
  · cases mf
    · simp [process_single_email]
    · simp only [process_single_email]
      by_cases he : (run_parts (archive_dir_of cfg (safe_decode_header mfrom) eid)
          mparts [] st.fs).1.isEmpty = true
      · simp [he]
      · simp [he]
  · simp [process_single_email]

/-- Claim C9 (code bug): when search is invoked before the store
connection exists, the debug statements of lines 260-262 dereference
self.db_conn before the try block and its hasattr guard, so the call
raises AttributeError to the caller instead of reporting the guarded
empty list. -/
theorem C9_search_raises_before_guard :
    ∀ query : String,
      search_emails_entry none query = Except.error attribute_error_msg :=
  fun _ => rfl

/-- Claim C7 (counterexample): on a header carrying two encoded-word
fragments, safe_decode_header returns only the decoding of the first
fragment, not the multi-encoded-word decoding of the whole header that
the claim describes. -/
theorem C7_counterexample :
    safe_decode_header (some hdr_two) = "ab" ∧
    spec_decode_header hdr_two = "abcd" ∧
    (safe_decode_header (some hdr_two) == spec_decode_header hdr_two) = false := by
  refine ⟨rfl, by decide, by decide⟩

/-- Claim C7 (amended): safe_decode_header decodes only the FIRST
encoded-word fragment — its result depends on nothing but the raw text,
the decode_header failure flag and the head fragment; on any decode
failure (decode_header raising, or the charset decode of the first bytes
fragment raising) it returns the raw text truncated to 100 characters;
a missing header yields "(No Header)"; being a total function, it never
raises to its caller. -/
theorem C7_first_fragment_only (h1 h2 : Header) :
    (h1.raw = h2.raw → h1.decodeHeaderRaises = h2.decodeHeaderRaises →
      h1.fragments.head? = h2.fragments.head? →
      safe_decode_header (some h1) = safe_decode_header (some h2)) ∧
    (h1.decodeHeaderRaises = true →
      safe_decode_header (some h1) = py_take h1.raw 100) ∧
    (∀ (t : String) (rest : List Fragment),
      h1.decodeHeaderRaises = false →
      h1.fragments = (⟨true, t, true⟩ : Fragment) :: rest →
      safe_decode_header (some h1) = py_take h1.raw 100) ∧
    safe_decode_header none = "(No Header)" := by
  refine ⟨?_, ?_, ?_, rfl⟩
  · intro hr hd hh
    simp only [safe_decode_header, hr, hd, hh]
  · intro hd
    simp only [safe_decode_header, hd, if_true]
  · intro t rest hd hf
    simp only [safe_decode_header, hd, hf, Bool.false_eq_true, if_false,
      List.head?_cons, if_true]

theorem C7_first_fragment_only_witness :
    safe_decode_header (some hdr_two) = safe_decode_header (some hdr_two') ∧
    safe_decode_header (some hdr_raises) = py_take hdr_raises.raw 100 :=
  ⟨(C7_first_fragment_only hdr_two hdr_two').1 rfl rfl rfl,
   (C7_first_fragment_only hdr_raises hdr_raises).2.1 rfl⟩

/-- Claim C5: in every run, once the error counter has reached the
threshold (max_errors = 5) the batch loop stops — a saturated state
processes no identifier at all, and when one message pushes the counter
to the threshold mid-batch the loop ends right after it, leaving the
rest of the batch untouched; a connected run nevertheless always reaches
the Closing step, and a failure of the close/logout calls is swallowed:
the run result does not depend on it. -/
theorem C5_threshold_stops_then_closes :
    (∀ (cfg : Config) (st : ArchSt) (msgs : List EmailMsg),
      max_errors ≤ st.error_count → run_batch cfg st msgs = (st, 0)) ∧
    (∀ (cfg : Config) (st : ArchSt) (m : EmailMsg) (rest : List EmailMsg),
      st.error_count < max_errors →
      max_errors ≤ (process_single_email cfg st m).1.error_count →
      run_batch cfg st (m :: rest) =
        ((process_single_email cfg st m).1,
         if (process_single_email cfg st m).2 then 1 else 0)) ∧
    (∀ (cfg : Config) (st : ArchSt) (sess : Session),
      sess.connected = true →
      (process_emails cfg st sess).close_attempted = true) ∧
    (∀ (cfg : Config) (st : ArchSt) (sess : Session) (b : Bool),
      process_emails cfg st sess =
        process_emails cfg st { sess with close_raises := b }) := by
  refine ⟨run_batch_saturated, ?_, ?_, ?_⟩
  · intro cfg st m rest hlt hge
    simp only [run_batch, if_neg (Nat.not_le.mpr hlt)]
    rw [run_batch_saturated cfg _ rest hge]
    simp
  · intro cfg st sess hc
    by_cases hs : sess.search_ok = true
    · simp [process_emails, hc, hs]
    · simp only [Bool.not_eq_true] at hs
      simp [process_emails, hc, hs]
  · intro cfg st sess b
    cases sess
    rfl

theorem C5_threshold_stops_then_closes_witness :
    run_batch cfg0 st5 [msg_ok] = (st5, 0) ∧
    run_batch cfg0 st4 [msg_raise, msg_ok] =
      ((process_single_email cfg0 st4 msg_raise).1,
       if (process_single_email cfg0 st4 msg_raise).2 then 1 else 0) ∧
    (process_emails cfg0 st4 sess0).close_attempted = true :=
  ⟨C5_threshold_stops_then_closes.1 cfg0 st5 [msg_ok] (by decide),
   C5_threshold_stops_then_closes.2.1 cfg0 st4 msg_raise [msg_ok] (by decide)
     (by decide),
   C5_threshold_stops_then_closes.2.2.1 cfg0 st4 sess0 (by decide)⟩

/-- Claim C10: the error counter is sticky instance state — per-message
processing, the batch loop and whole process_emails runs never decrease
it (and nothing ever resets it), and once it has reached the threshold,
every later run on the same archiver object returns its state untouched
and processes zero messages, whatever fresh mailbox session it is given. -/
theorem C10_error_counter_sticky :
    (∀ (cfg : Config) (st : ArchSt) (m : EmailMsg),
      st.error_count ≤ (process_single_email cfg st m).1.error_count) ∧
    (∀ (cfg : Config) (st : ArchSt) (msgs : List EmailMsg),
      st.error_count ≤ (run_batch cfg st msgs).1.error_count) ∧
    (∀ (cfg : Config) (st : ArchSt) (sess : Session),
      st.error_count ≤ (process_emails cfg st sess).st.error_count) ∧
    (∀ (cfg : Config) (st : ArchSt) (sess : Session),
      max_errors ≤ st.error_count →
      (process_emails cfg st sess).st = st ∧
        (process_emails cfg st sess).processed = 0) := by
  have hmono : ∀ (cfg : Config) (st : ArchSt) (sess : Session),
      st.error_count ≤ (process_emails cfg st sess).st.error_count := by
    intro cfg st sess
    by_cases hc : sess.connected = true
    · by_cases hs : sess.search_ok = true
      · simp only [process_emails, hc, hs, Bool.not_true, Bool.false_eq_true,
          if_false]
        exact run_batch_error_mono cfg _ st
      · simp only [Bool.not_eq_true] at hs
        simp [process_emails, hc, hs]
    · simp only [Bool.not_eq_true] at hc
      simp [process_emails, hc]
  refine ⟨process_error_mono, fun cfg st msgs => run_batch_error_mono cfg msgs st,
    hmono, ?_⟩
  intro cfg st sess hsat
  by_cases hc : sess.connected = true
  · by_cases hs : sess.search_ok = true
    · simp only [process_emails, hc, hs, Bool.not_true, Bool.false_eq_true,
        if_false]
      rw [run_batch_saturated cfg st _ hsat]
      exact ⟨rfl, rfl⟩
    · simp only [Bool.not_eq_true] at hs
      simp [process_emails, hc, hs]
  · simp only [Bool.not_eq_true] at hc
    simp [process_emails, hc]

theorem C10_error_counter_sticky_witness :
    (process_emails cfg0 st5 sess1).st = st5 ∧
    (process_emails cfg0 st5 sess1).processed = 0 :=
  C10_error_counter_sticky.2.2.2 cfg0 st5 sess1 (by decide)

/-- Claim C1 (counterexample): a message whose single attachment is
extracted and written to disk but whose metadata INSERT fails (the
source catches the database error, rolls back and only logs it) leaves a
written attachment file on disk with no ArchivedEmail record in the
store — and process_single_email still reports success. -/
theorem C1_counterexample :
    (process_single_email cfg0 st0 msg_dbfail).1.fs.isEmpty = false ∧
    (process_single_email cfg0 st0 msg_dbfail).1.db.emails.any
      (fun r => r.email_id == "id1") = false ∧
    (process_single_email cfg0 st0 msg_dbfail).2 = true := by
  refine ⟨by decide, by decide, by decide⟩

/-- Claim C1 (amended): provided the message is fetched and parsed
without an exception and its metadata INSERT transaction does not fail,
an ArchivedEmail record for the message's identifier exists in the
resulting store if and only if at least one attachment was successfully
extracted and written to disk for the message (the file list grew);
when the INSERT does fail, written attachment files can remain without a
record (C1_counterexample). -/
theorem C1_record_iff_file_written (cfg : Config) (st : ArchSt) (m : EmailMsg)
    (hr : m.raises = false) (hf : m.fetch_ok = true) (hsf : m.store_fail = none)
    (hfresh : ∀ r ∈ st.db.emails, r.email_id ≠ m.email_id) :
    ((process_single_email cfg st m).1.db.emails.any
        (fun r => r.email_id == m.email_id) = true) ↔
      st.fs.length < (process_single_email cfg st m).1.fs.length := by
  have hany : st.db.emails.any (fun r => r.email_id == m.email_id) = false := by
    rw [Bool.eq_false_iff]
    intro hco
    rw [List.any_eq_true] at hco
    obtain ⟨r, hrm, hre⟩ := hco
    exact hfresh r hrm (by simpa using hre)
  obtain ⟨a, b, he, hl⟩ := run_parts_shape
    (archive_dir_of cfg (safe_decode_header m.from_h) m.email_id) m.parts [] st.fs
  simp only [process_single_email, hr, hf, hsf, Bool.false_eq_true, if_false,
    Bool.not_true]
  rw [he]
  simp only [List.nil_append]
  cases a with
  | nil =>
    have hb : b = [] := by
      have h0 : b.length = 0 := by simpa using hl.symm
      exact List.length_eq_zero.mp h0
    subst hb
    simp [hany]
  | cons x a' =>
    have hbpos : 0 < b.length := by
      rw [← hl]
      simp
    have hR : st.fs.length < (st.fs ++ b).length := by
      rw [List.length_append]
      omega
    simp only [List.isEmpty_cons, Bool.false_eq_true, if_false]
    rw [store_fresh_none _ _ _ _ _ _ _ hany]
    simp [committed_db, hbpos]

theorem C1_record_iff_file_written_witness :
    ((process_single_email cfg0 st0 msg_ok).1.db.emails.any
        (fun r => r.email_id == msg_ok.email_id) = true) ↔
      st0.fs.length < (process_single_email cfg0 st0 msg_ok).1.fs.length :=
  C1_record_iff_file_written cfg0 st0 msg_ok rfl rfl rfl (by decide)

/-- Claim C4: inserting a second record whose message identifier is
already in the store is rejected by the UNIQUE constraint and rolled
back — the store (first record and all keyword rows included) is
unchanged whatever the new subject, sender, date, attachment list or
failure oracle — and the pipeline treats the rejection as non-fatal:
process_single_email returns normally with the store untouched and the
error counter not incremented. -/
theorem C4_duplicate_id_skipped (cfg : Config) (st : ArchSt) (m : EmailMsg)
    (hdup : ∃ r ∈ st.db.emails, r.email_id = m.email_id)
    (hr : m.raises = false) (hf : m.fetch_ok = true) :
    (∀ (subject sender date_received : String) (attachments : List String)
        (archive_path : String) (fail : Option Nat),
      store_email_metadata st.db m.email_id subject sender date_received
        attachments archive_path fail = st.db) ∧
    (process_single_email cfg st m).1.db = st.db ∧
    (process_single_email cfg st m).1.error_count = st.error_count := by
  have hany : st.db.emails.any (fun r => r.email_id == m.email_id) = true := by
    rw [List.any_eq_true]
    obtain ⟨r, hrm, hre⟩ := hdup
    exact ⟨r, hrm, by simp [hre]⟩
  refine ⟨fun subject sender date_received attachments archive_path fail =>
    store_dup_unchanged _ _ _ _ _ _ _ _ hany, ?_,
    process_error_count cfg st m hr⟩
  simp only [process_single_email, hr, hf, Bool.false_eq_true, if_false,
    Bool.not_true]
  split
  · rfl
  · simp only []
    exact store_dup_unchanged _ _ _ _ _ _ _ _ hany

theorem C4_duplicate_id_skipped_witness :
    store_email_metadata st_dup.db msg_ok.email_id "New subject"
      "alice@example.com" "2024" ["a.pdf"] "q" none = st_dup.db ∧
    (process_single_email cfg0 st_dup msg_ok).1.db = st_dup.db ∧
    (process_single_email cfg0 st_dup msg_ok).1.error_count =
      st_dup.error_count :=
  ⟨(C4_duplicate_id_skipped cfg0 st_dup msg_ok (by decide) rfl rfl).1
      "New subject" "alice@example.com" "2024" ["a.pdf"] "q" none,
   (C4_duplicate_id_skipped cfg0 st_dup msg_ok (by decide) rfl rfl).2.1,
   (C4_duplicate_id_skipped cfg0 st_dup msg_ok (by decide) rfl rfl).2.2⟩

/-- Claim C2: a successful insert (fresh identifier, no environment
failure) extends the keyword relation by exactly one row per distinct
qualifying token — a cleaned (alphanumeric-filtered) word of the
case-folded, whitespace-split subject and sender texts whose cleaned
length lies in 3..30 — each referencing the just-inserted record's
rowid; counting over the whole resulting store, every such token has
exactly one row referencing the new record and every other string has
none. -/
theorem C2_one_row_per_keyword (db : DB)
    (email_id subject sender date_received : String) (attachments : List String)
    (archive_path : String)
    (hfresh : db.emails.any (fun r => r.email_id == email_id) = false)
    (hwf : ∀ en ∈ db.index, en.email_id ≠ db.nextId) :
    ((store_email_metadata db email_id subject sender date_received attachments
        archive_path none).index =
      db.index ++ (extract_keywords subject sender).map
        (fun k => (⟨db.nextId, k⟩ : KeywordEntry))) ∧
    (extract_keywords subject sender).Nodup ∧
    (∀ k : String, k ∈ extract_keywords subject sender ↔
      (k ∈ raw_tokens subject sender ∧ 3 ≤ k.length ∧ k.length ≤ 30)) ∧
    (∀ k : String,
      (store_email_metadata db email_id subject sender date_received attachments
          archive_path none).index.countP
        (fun en => en.email_id == db.nextId && en.keyword == k) =
      if k ∈ extract_keywords subject sender then 1 else 0) := by
  rw [store_fresh_none _ _ _ _ _ _ _ hfresh]
  refine ⟨rfl, List.nodup_dedup _, ?_, ?_⟩
  · intro k
    simp [extract_keywords, List.mem_filter, keyword_ok, and_assoc]
  · intro k
    simp only [committed_db, List.countP_append]
    have h0 : db.index.countP
        (fun en => en.email_id == db.nextId && en.keyword == k) = 0 := by
      rw [List.countP_eq_zero]
      intro en hen
      simp [hwf en hen]
    rw [h0, Nat.zero_add, List.countP_map]
    have hcomp : ((fun en : KeywordEntry =>
        en.email_id == db.nextId && en.keyword == k) ∘
        (fun k' : String => (⟨db.nextId, k'⟩ : KeywordEntry))) =
        (fun k' => k' == k) := by
      funext k'
      simp
    rw [hcomp]
    by_cases hk : k ∈ extract_keywords subject sender
    · rw [if_pos hk]
      have hcount := List.count_eq_one_of_mem (List.nodup_dedup _) hk
      simpa [List.count] using hcount
    · rw [if_neg hk]
      rw [List.countP_eq_zero]
      intro k' hk'
      simp only [beq_iff_eq]
      intro heq
      exact hk (heq ▸ hk')

theorem C2_one_row_per_keyword_witness :
    (store_email_metadata DB.empty "id1" "Q3 Report" "alice@example.com" "2024"
        ["a.pdf"] "p" none).index.countP
      (fun en => en.email_id == DB.empty.nextId && en.keyword == "report") =
      if "report" ∈ extract_keywords "Q3 Report" "alice@example.com" then 1
      else 0 :=
  (C2_one_row_per_keyword DB.empty "id1" "Q3 Report" "alice@example.com" "2024"
    ["a.pdf"] "p" (by decide) (by decide)).2.2.2 "report"

/-- Claim C8 (counterexample): the query is pasted into a LIKE pattern,
so its "%" and "_" characters act as wildcards: searching for "a_c"
returns the record whose subject is "abc" although "a_c" is not a
case-insensitive substring of any of its five fields — the code's
matching is not substring matching for every query string. -/
theorem C8_counterexample :
    search_emails db_abc "a_c" = [to_row email_abc] ∧
    ci_substr "a_c" email_abc.subject = false ∧
    ci_substr "a_c" email_abc.sender = false ∧
    ci_substr "a_c" email_abc.date_received = false ∧
    ci_substr "a_c" email_abc.attachments = false ∧
    ci_substr "a_c" email_abc.archive_path = false := by
  refine ⟨by decide, by decide, by decide, by decide, by decide, by decide⟩

/-- Claim C8 (amended): for every query string, search returns at most
100 rows, ordered by the stored date-received text descending in
string-lexicographic order, and every returned row is the projection of
a stored record matching the stripped, lowercased query as a SQL LIKE
"%query%" pattern (ASCII-case-insensitively, with "%" and "_" of the
query acting as wildcards — which coincides with substring matching only
for wildcard-free queries) on its subject, sender, attachments or date
field or on one of its keywords. -/
theorem C8_like_capped_sorted (db : DB) (query : String) :
    (search_emails db query).length ≤ 100 ∧
    List.Sorted date_desc (search_emails db query) ∧
    (∀ row ∈ search_emails db query, ∃ e ∈ db.emails,
      email_matches db (py_lower (py_strip query)) e = true ∧ to_row e = row) := by
  refine ⟨?_, ?_, ?_⟩
  · simp only [search_emails]
    rw [List.length_take]
    exact min_le_left _ _
  · simp only [search_emails]
    exact List.Pairwise.sublist (List.take_sublist _ _)
      (List.sorted_insertionSort date_desc _)
  · intro row hrow
    simp only [search_emails] at hrow
    have h1 := List.mem_of_mem_take hrow
    have h2 := (List.perm_insertionSort date_desc _).mem_iff.mp h1
    rw [List.mem_dedup, List.mem_map] at h2
    obtain ⟨e, he, hrw⟩ := h2
    rw [List.mem_filter] at he
    exact ⟨e, he.1, he.2, hrw⟩

theorem C8_like_capped_sorted_witness :
    (search_emails db_abc "abc").length ≤ 100 ∧
    List.Sorted date_desc (search_emails db_abc "abc") ∧
    (∃ e ∈ db_abc.emails,
      email_matches db_abc (py_lower (py_strip "abc")) e = true ∧
      to_row e = to_row email_abc) :=
  ⟨(C8_like_capped_sorted db_abc "abc").1,
   (C8_like_capped_sorted db_abc "abc").2.1,
   (C8_like_capped_sorted db_abc "abc").2.2 (to_row email_abc) (by decide)⟩

end EmailArchiver
